import Mathlib

/-!
Shallow embedding of `src/GitHubImageHost.py` (a GitHub-backed image host
client).  Pure string/path computations are translated to Lean functions;
each network-performing method is translated to a function from the host
configuration and the responses the remote returns (in program order) to
the method's result (`Except Err _`, mirroring Python exceptions) together
with the trace of actions it performs: semaphore acquisition/release and
the start/end of each HTTP request.
-/

namespace GIH

/-- Python `str.lstrip(c)` for a single strip character. -/
def pyLStrip (c : Char) (s : String) : String :=
  ⟨s.data.dropWhile (· = c)⟩

/-- Python `str.rstrip(c)` for a single strip character. -/
def pyRStrip (c : Char) (s : String) : String :=
  ⟨(s.data.reverse.dropWhile (· = c)).reverse⟩

/-- Python `str.strip(c)` for a single strip character. -/
def pyStrip (c : Char) (s : String) : String :=
  pyRStrip c (pyLStrip c s)

/-- Index of the last occurrence of `c` in `l` (Python `str.rfind`),
`none` when absent. -/
def lastIdx (c : Char) (l : List Char) : Option Nat :=
  (l.foldl (fun acc ch => (if ch = c then some acc.2 else acc.1, acc.2 + 1))
    ((none : Option Nat), 0)).1

/-- `pathlib.PurePath.suffix` of a file name: the part from the last dot on,
provided that dot is neither the first nor the last character. -/
def pySuffix (name : String) : String :=
  match lastIdx '.' name.data with
  | some i => if 0 < i ∧ i < name.data.length - 1 then ⟨name.data.drop i⟩ else ""
  | none => ""

/-- `pathlib.PurePath.stem` of a file name: the name with `pySuffix` removed. -/
def pyStem (name : String) : String :=
  match lastIdx '.' name.data with
  | some i => if 0 < i ∧ i < name.data.length - 1 then ⟨name.data.take i⟩ else name
  | none => name

/-- Split a character list at every occurrence of `c` (the components of
Python's `str.split(c)`). -/
def splitChar (c : Char) (l : List Char) : List (List Char) :=
  l.foldr (fun x acc =>
    if x = c then [] :: acc
    else match acc with
      | [] => [[x]]
      | a :: as => (x :: a) :: as) [[]]

/-- `pathlib.Path(path).name`: the last `/`-separated component, with empty
and `.` components dropped (as pathlib's parsing does). -/
def pyName (path : String) : String :=
  (((splitChar '/' path.data).filter
      (fun comp => comp ≠ [] ∧ comp ≠ ['.'])).getLast?).map
    (fun l => (⟨l⟩ : String)) |>.getD ""

/-- Does the string start with `/`? -/
def startsSep (s : String) : Bool :=
  match s.data with
  | [] => false
  | c :: _ => c = '/'

/-- Does the string end with exactly one `/` (a final `/` not preceded by
another `/`)? -/
def endsOneSep (s : String) : Bool :=
  match s.data.reverse with
  | [] => false
  | c :: rest =>
    c = '/' && (match rest with
                | [] => true
                | d :: _ => d ≠ '/')

/-- A UTC wall-clock instant as `time.gmtime()` exposes it. -/
structure UTCTime where
  year : Nat
  month : Nat
  day : Nat
  hour : Nat
  minute : Nat
  second : Nat
deriving DecidableEq

/-- Zero-pad the decimal representation of `n` to width `w`. -/
def padZ (w : Nat) (n : Nat) : String :=
  let s := toString n
  if s.length < w then String.mk (List.replicate (w - s.length) '0') ++ s else s

/-- `time.strftime("%Y%m%d-%H%M%S", t)`: the timestamp format used by the
upload rename-on-conflict path. -/
def fmtTimestamp (t : UTCTime) : String :=
  padZ 4 t.year ++ padZ 2 t.month ++ padZ 2 t.day ++ "-" ++
    padZ 2 t.hour ++ padZ 2 t.minute ++ padZ 2 t.second

/-- HTTP method of a request issued through the session. -/
inductive Method
  | get
  | put
  | del
deriving DecidableEq

/-- An outbound HTTP request: method, URL and the JSON body fields the code
sends (`message`, `content`, `sha`), plus the explicit timeout if any. -/
structure Request where
  method : Method
  url : String
  message : Option String := none
  content : Option String := none
  sha : Option String := none
  timeLimit : Option Nat := none
deriving DecidableEq

/-- A remote file-tree entry as returned inside a directory listing
(`item["name"]`, `item["type"]`, `item["path"]`, `item["sha"]`). -/
structure Entry where
  name : String
  type : String
  path : String
  sha : String
deriving DecidableEq

/-- An HTTP response as the code observes it: the status code, the raw body
text (`resp.text`), the `sha` field of the parsed JSON body (used where the
code evaluates `r.json()["sha"]`; modelling a body that parses and carries
that field), and the parsed listing (used where the code iterates
`r.json()`). -/
structure Response where
  status : Nat
  text : String := ""
  sha : String := ""
  listing : List Entry := []
deriving DecidableEq

/-- `requests.Response.ok`: true iff the status code is below 400. -/
def Response.ok (r : Response) : Bool :=
  r.status < 400

/-- One step of observable behaviour: taking or returning the semaphore
permit, or entering/leaving a network request. -/
inductive Act
  | acquire
  | release
  | reqStart (r : Request)
  | reqEnd
deriving DecidableEq

/-- A configured store instance (the fields set by `__init__`). -/
structure Host where
  owner : String
  repo : String
  branch : String
  subdir : String
  token : String
  custom_cdn : Option String
  max_concurrency : Nat
deriving DecidableEq

/-- Exceptions raised by the code: the missing-credential `RuntimeError`
from `__init__`, `FileNotFoundError`, and the `RuntimeError(text)` raised
on remote failures (carrying the attached string). -/
inductive Err
  | missingToken
  | fileNotFound (name : String)
  | remote (text : String)
deriving DecidableEq

/-- `subdir.strip("/") + "/" if subdir else ""` — the subdirectory
normalization performed in `__init__`. -/
def normSubdir (subdir : String) : String :=
  if subdir = "" then "" else pyStrip '/' subdir ++ "/"

/-- `token or os.getenv("GITHUB_PAT")` under Python truthiness: an explicit
token that is `None` or `""` falls back to the environment value (itself
`none` when the variable is unset). -/
def resolveToken (token : Option String) (envPat : Option String) : String :=
  match token with
  | some t => if t = "" then envPat.getD "" else t
  | none => envPat.getD ""

/-- `GitHubImageHost.__init__`: normalizes the subdirectory, resolves the
credential (explicit argument, else the `GITHUB_PAT` environment variable)
and fails with the missing-credential error when the resolved credential is
falsy. -/
def initHost (owner repo branch subdir : String) (token : Option String)
    (custom_cdn : Option String) (max_concurrency : Nat)
    (envPat : Option String) : Except Err Host :=
  let tok := resolveToken token envPat
  if tok = "" then Except.error Err.missingToken
  else Except.ok
    { owner := owner, repo := repo, branch := branch,
      subdir := normSubdir subdir, token := tok,
      custom_cdn := custom_cdn, max_concurrency := max_concurrency }

/-- `_api_url`: the GitHub contents-API URL for a repository path. -/
def apiUrl (h : Host) (path : String) : String :=
  "https://api.github.com/repos/" ++ h.owner ++ "/" ++ h.repo ++ "/contents/" ++ path

/-- `_cdn_url`: the public URL of a file.  The relative path
`subdir + filename` is `lstrip`ped of leading `/`; a truthy custom CDN
prefix is `rstrip`ped of trailing `/` and prepended, otherwise the jsDelivr
pattern is used. -/
def cdnUrl (h : Host) (filename : String) : String :=
  let rel := pyLStrip '/' (h.subdir ++ filename)
  let dflt := "https://cdn.jsdelivr.net/gh/" ++ h.owner ++ "/" ++ h.repo ++ "@" ++
    h.branch ++ "/" ++ rel
  match h.custom_cdn with
  | some c => if c = "" then dflt else pyRStrip '/' c ++ "/" ++ rel
  | none => dflt

/-- `get_url`: returns the CDN URL without touching the network. -/
def get_url (h : Host) (filename : String) : String :=
  cdnUrl h filename

/-- A plain GET request to a URL (no body fields). -/
def getReq (url : String) : Request :=
  { method := Method.get, url := url }

/-- The `.gitkeep` placeholder create issued by `_ensure_dir`
(message `"init dir"`, empty base64 content, no `sha`). -/
def gitkeepReq (h : Host) : Request :=
  { method := Method.put, url := apiUrl h (h.subdir ++ ".gitkeep"),
    message := some "init dir", content := some "", sha := none }

/-- `_ensure_dir`: no-op on empty subdirectory; otherwise a GET of the
subdirectory and, when that lookup is not ok, a fire-and-forget PUT of the
`.gitkeep` placeholder (its response is never examined, and no semaphore
permit is taken). -/
def ensureDirActs (h : Host) (dirLookup : Response) : List Act :=
  if h.subdir = "" then []
  else
    let getA := [Act.reqStart (getReq (apiUrl h h.subdir)), Act.reqEnd]
    if dirLookup.ok then getA
    else getA ++ [Act.reqStart (gitkeepReq h), Act.reqEnd]

/-- A local file as `upload`/`update` observe it: its path, whether
`Path(path).is_file()` holds, and the base64 encoding of its bytes
(kept abstract as the encoded string). -/
structure LocalFile where
  path : String
  isFile : Bool
  contentB64 : String
deriving DecidableEq

/-- `Path(file_path).name` of a local file. -/
def LocalFile.name (f : LocalFile) : String :=
  pyName f.path

/-- The create request `upload` sends for file name `fname`
(message `"upload fname"`, no `sha`, 30-unit timeout). -/
def uploadPut (h : Host) (fname b64 : String) : Request :=
  { method := Method.put, url := apiUrl h (h.subdir ++ fname),
    message := some ("upload " ++ fname), content := some b64,
    sha := none, timeLimit := some 30 }

/-- The responses the environment returns to one `upload` call, and the
current UTC time observed if the rename path runs. -/
structure UploadEnv where
  dirLookup : Response
  resp1 : Response
  resp2 : Response
  now : UTCTime
deriving DecidableEq

/-- `upload`: ensure the directory, check the local file, then under the
semaphore PUT the file; on a 422 conflict rename once with a UTC timestamp
and retry; raise `RuntimeError(resp.text)` (inside the `with` block, so the
permit is still released) if the final response is not ok; return the CDN
URL of the name actually used. -/
def upload (h : Host) (f : LocalFile) (env : UploadEnv) :
    Except Err String × List Act :=
  let ed := ensureDirActs h env.dirLookup
  if f.isFile = false then (Except.error (Err.fileNotFound f.path), ed)
  else
    let filename := f.name
    let r1 := uploadPut h filename f.contentB64
    if env.resp1.status = 422 then
      let ts := fmtTimestamp env.now
      let fn2 := pyStem filename ++ "-" ++ ts ++ pySuffix filename
      let r2 := uploadPut h fn2 f.contentB64
      let acts := ed ++ [Act.acquire, Act.reqStart r1, Act.reqEnd,
        Act.reqStart r2, Act.reqEnd, Act.release]
      if env.resp2.ok then (Except.ok (cdnUrl h fn2), acts)
      else (Except.error (Err.remote env.resp2.text), acts)
    else
      let acts := ed ++ [Act.acquire, Act.reqStart r1, Act.reqEnd, Act.release]
      if env.resp1.ok then (Except.ok (cdnUrl h filename), acts)
      else (Except.error (Err.remote env.resp1.text), acts)

/-- The DELETE request sent for repository path `apiPath` of file `fname`
carrying version token `sha`. -/
def deleteReq (h : Host) (apiPath fname sha : String) : Request :=
  { method := Method.del, url := apiUrl h apiPath,
    message := some ("delete " ++ fname), sha := some sha }

/-- `delete`: GET the file's metadata; on 404 return silently; otherwise
under the semaphore DELETE with the fetched `sha`, and raise
`RuntimeError(resp.text)` (after the `with` block) when the response is not
ok.  A non-404 failed lookup is not detected: the code reads
`r.json()["sha"]` from whatever body came back and proceeds. -/
def delete (h : Host) (filename : String) (lookup delResp : Response) :
    Except Err Unit × List Act :=
  let api_path := h.subdir ++ filename
  let lk := [Act.reqStart (getReq (apiUrl h api_path)), Act.reqEnd]
  if lookup.status = 404 then (Except.ok (), lk)
  else
    let dr := deleteReq h api_path filename lookup.sha
    let acts := lk ++ [Act.acquire, Act.reqStart dr, Act.reqEnd, Act.release]
    if delResp.ok then (Except.ok (), acts)
    else (Except.error (Err.remote delResp.text), acts)

/-- The overwrite PUT `update` sends (message `"update name"`, carrying the
fetched `sha`, no explicit timeout). -/
def updatePut (h : Host) (name b64 sha : String) : Request :=
  { method := Method.put, url := apiUrl h (h.subdir ++ name),
    message := some ("update " ++ name), content := some b64, sha := some sha }

/-- `update`: ensure the directory, resolve the target name
(`filename or p.name` under Python truthiness), GET the target's metadata;
raise `FileNotFoundError(name)` when that lookup is not ok; otherwise under
the semaphore PUT the new content with the fetched `sha`, raising
`RuntimeError(resp.text)` (after the `with` block) on a failed response and
returning the target's CDN URL on success. -/
def update (h : Host) (f : LocalFile) (filename : Option String)
    (dirLookup lookup putResp : Response) : Except Err String × List Act :=
  let ed := ensureDirActs h dirLookup
  let name := match filename with
    | some n => if n = "" then f.name else n
    | none => f.name
  let api_path := h.subdir ++ name
  let lk := [Act.reqStart (getReq (apiUrl h api_path)), Act.reqEnd]
  if lookup.ok = false then (Except.error (Err.fileNotFound name), ed ++ lk)
  else
    let pr := updatePut h name f.contentB64 lookup.sha
    let acts := ed ++ lk ++ [Act.acquire, Act.reqStart pr, Act.reqEnd, Act.release]
    if putResp.ok then (Except.ok (cdnUrl h name), acts)
    else (Except.error (Err.remote putResp.text), acts)

/-- `exists`: a single ungated GET; the result is the response's ok flag. -/
def existsFile (h : Host) (filename : String) (lookup : Response) :
    Bool × List Act :=
  (lookup.ok, [Act.reqStart (getReq (apiUrl h (h.subdir ++ filename))), Act.reqEnd])

/-- The per-entry loop of `clear_dir`: skip non-file entries and kept
names; delete each remaining entry under the semaphore using the entry's
own `path` and `sha`; raise `RuntimeError(resp.text)` (after the `with`
block) on the first failed delete; count successful deletions. -/
def clearLoop (h : Host) (keep : List String) (dresp : Entry → Response) :
    List Entry → Nat → Except Err Nat × List Act
  | [], deleted => (Except.ok deleted, [])
  | e :: rest, deleted =>
    if e.type ≠ "file" then clearLoop h keep dresp rest deleted
    else if e.name ∈ keep then clearLoop h keep dresp rest deleted
    else
      let dr := deleteReq h e.path e.name e.sha
      let acts := [Act.acquire, Act.reqStart dr, Act.reqEnd, Act.release]
      if (dresp e).ok then
        let r := clearLoop h keep dresp rest (deleted + 1)
        (r.1, acts ++ r.2)
      else (Except.error (Err.remote (dresp e).text), acts)

/-- `clear_dir`: resolve the target directory (`dir_path.strip("/") + "/"
if dir_path else self.subdir`), GET the listing (raising a `RuntimeError`
with a fixed message, not the response body, on failure), then run the
per-entry delete loop and return the number of files deleted. -/
def clear_dir (h : Host) (keep : List String) (dir_path : Option String)
    (listResp : Response) (dresp : Entry → Response) :
    Except Err Nat × List Act :=
  let target_dir := match dir_path with
    | some d => if d = "" then h.subdir else pyStrip '/' d ++ "/"
    | none => h.subdir
  let lk := [Act.reqStart (getReq (apiUrl h target_dir)), Act.reqEnd]
  if listResp.ok = false then
    (Except.error (Err.remote ("无法读取目录: " ++ target_dir)), lk)
  else
    let r := clearLoop h keep dresp listResp.listing 0
    (r.1, lk ++ r.2)

/-- Insertion into a Python dict rendered as an ordered association list:
a fresh key is appended, an existing key's value is overwritten in place. -/
def dictInsert (m : List (String × String)) (k v : String) :
    List (String × String) :=
  if m.any (fun p => p.1 = k) then
    m.map (fun p => if p.1 = k then (k, v) else p)
  else m ++ [(k, v)]

/-- `upload_many`: the dict comprehension
`{f: self.upload(f) for f in files}` — uploads each path in order,
accumulating a dict keyed by the local path; the first failing upload
aborts the rest. -/
def upload_many (h : Host) :
    List (LocalFile × UploadEnv) → List (String × String) →
    Except Err (List (String × String)) × List Act
  | [], m => (Except.ok m, [])
  | (f, env) :: rest, m =>
    let r := upload h f env
    match r.1 with
    | Except.ok url =>
      let r2 := upload_many h rest (dictInsert m f.path url)
      (r2.1, r.2 ++ r2.2)
    | Except.error e => (Except.error e, r.2)

/-- Is this request a mutating (non-GET) call? -/
def isWrite (r : Request) : Bool :=
  match r.method with
  | Method.get => false
  | _ => true

/-- The requests issued along a trace, in order. -/
def requestsOf (acts : List Act) : List Request :=
  acts.filterMap fun a => match a with
    | Act.reqStart r => some r
    | _ => none

/-- The mutating requests issued along a trace, in order. -/
def writesOf (acts : List Act) : List Request :=
  (requestsOf acts).filter isWrite

/-- Number of semaphore acquisitions in a trace. -/
def countAcq : List Act → Nat
  | [] => 0
  | Act.acquire :: t => countAcq t + 1
  | _ :: t => countAcq t

/-- Number of semaphore releases in a trace. -/
def countRel : List Act → Nat
  | [] => 0
  | Act.release :: t => countRel t + 1
  | _ :: t => countRel t

/-- The gate/request state a trace drives: whether the thread holds the
semaphore permit, and the request currently in flight if any. -/
def gateState : Bool × Option Request → List Act → Bool × Option Request
  | s, [] => s
  | s, Act.acquire :: t => gateState (true, s.2) t
  | s, Act.release :: t => gateState (false, s.2) t
  | s, Act.reqStart q :: t => gateState (s.1, some q) t
  | s, Act.reqEnd :: t => gateState (s.1, none) t

/-- Trace discipline checker, starting from holding-flag `hold` and
in-flight request `cur`: acquisitions only while not holding, releases only
while holding and with no request in flight, requests properly bracketed,
and every mutating request not exempted by `ex` started while holding the
permit. -/
def gatedOkB (ex : Request → Bool) : Bool → Option Request → List Act → Bool
  | _, _, [] => true
  | hold, cur, Act.acquire :: t => !hold && cur.isNone && gatedOkB ex true cur t
  | hold, cur, Act.release :: t => hold && cur.isNone && gatedOkB ex false cur t
  | hold, cur, Act.reqStart q :: t =>
    cur.isNone && (!isWrite q || ex q || hold) && gatedOkB ex hold (some q) t
  | hold, cur, Act.reqEnd :: t => cur.isSome && gatedOkB ex hold none t

/-- The discipline checker with no exemption: every mutating request must
be issued while holding the permit. -/
def mutGatedB (acts : List Act) : Bool :=
  gatedOkB (fun _ => false) false none acts

/-- Exemption predicate for the `.gitkeep` placeholder create of
`_ensure_dir`. -/
def isGitkeep (h : Host) (q : Request) : Bool :=
  decide (q = gitkeepReq h)

/-- The traces one store instance's mutating operations can produce:
every `upload`, `delete`, `update` or `clear_dir` call under any
environment responses. -/
def opTrace (h : Host) (tr : List Act) : Prop :=
  (∃ f env, tr = (upload h f env).2) ∨
  (∃ fn lk dr, tr = (delete h fn lk dr).2) ∨
  (∃ f fn dl lk pr, tr = (update h f fn dl lk pr).2) ∨
  (∃ keep dp lr dresp, tr = (clear_dir h keep dp lr dresp).2)

/-- A thread of the concurrent system: its remaining program, whether it
holds a permit, and the request it currently has in flight. -/
structure Thread where
  prog : List Act
  holding : Bool
  cur : Option Request
deriving DecidableEq

/-- Is the thread inside a mutating request not exempted by `ex`? -/
def Thread.busyNE (ex : Request → Bool) (t : Thread) : Bool :=
  match t.cur with
  | some q => isWrite q && !ex q
  | none => false

/-- A configuration of the concurrent system: free permits of the counting
gate, and the thread pool. -/
def Config : Type :=
  Nat × Multiset Thread

/-- Interleaved small-step semantics: any thread may take its next action;
`acquire` blocks while no permit is free (counting-semaphore semantics),
every other action is always enabled. -/
inductive GStep : Config → Config → Prop
  | acquire {p : Nat} {s : Multiset Thread} {rest : List Act} {hold : Bool}
      {cur : Option Request} (hp : 0 < p) :
      GStep (p, Thread.mk (Act.acquire :: rest) hold cur ::ₘ s)
            (p - 1, Thread.mk rest true cur ::ₘ s)
  | release {p : Nat} {s : Multiset Thread} {rest : List Act} {hold : Bool}
      {cur : Option Request} :
      GStep (p, Thread.mk (Act.release :: rest) hold cur ::ₘ s)
            (p + 1, Thread.mk rest false cur ::ₘ s)
  | reqStart {p : Nat} {s : Multiset Thread} {q : Request} {rest : List Act}
      {hold : Bool} {cur : Option Request} :
      GStep (p, Thread.mk (Act.reqStart q :: rest) hold cur ::ₘ s)
            (p, Thread.mk rest hold (some q) ::ₘ s)
  | reqEnd {p : Nat} {s : Multiset Thread} {rest : List Act} {hold : Bool}
      {cur : Option Request} :
      GStep (p, Thread.mk (Act.reqEnd :: rest) hold cur ::ₘ s)
            (p, Thread.mk rest hold none ::ₘ s)

/-- Number of threads currently holding a permit. -/
def holdingCount (ts : Multiset Thread) : Nat :=
  Multiset.countP (fun t => t.holding = true) ts

/-- Number of non-exempt mutating requests currently in flight. -/
def inFlightMut (ex : Request → Bool) (ts : Multiset Thread) : Nat :=
  Multiset.countP (fun t => t.busyNE ex = true) ts

/-- The initial thread pool: each program not yet started, holding nothing,
with no request in flight. -/
def initThreads (progs : Multiset (List Act)) : Multiset Thread :=
  progs.map (fun pr => Thread.mk pr false none)

/-- Reachability from `N` free permits and the given programs. -/
def Reach (N : Nat) (progs : Multiset (List Act)) (c : Config) : Prop :=
  Relation.ReflTransGen GStep (N, initThreads progs) c

/-- The inductive invariant of the gated system: free permits plus held
permits equal the gate size, every thread's residual program still respects
the trace discipline from its current state, and every thread inside a
non-exempt mutating request holds a permit. -/
def Inv (ex : Request → Bool) (N : Nat) (c : Config) : Prop :=
  c.1 + holdingCount c.2 = N ∧
  ∀ t ∈ c.2, gatedOkB ex t.holding t.cur t.prog = true ∧
    (t.busyNE ex = true → t.holding = true)

/-- The entries `clear_dir` is specified to delete: regular files whose
name is not kept. -/
def toDelete (keep : List String) (l : List Entry) : List Entry :=
  l.filter (fun e => decide (e.type = "file") && !(decide (e.name ∈ keep)))

/-- The URL carried by a successful result (placeholder on errors). -/
def okOr (r : Except Err String) : String :=
  match r with
  | Except.ok u => u
  | Except.error _ => ""

/-- Modelled from the spec's words, for comparison with `cdnUrl`: the URL
pattern with `{subdir}{filename}` appended verbatim (no lstrip of the
relative path, custom base applied whenever configured). -/
def cdnUrlSpec (h : Host) (filename : String) : String :=
  match h.custom_cdn with
  | some c => pyRStrip '/' c ++ "/" ++ h.subdir ++ filename
  | none => "https://cdn.jsdelivr.net/gh/" ++ h.owner ++ "/" ++ h.repo ++ "@" ++
      h.branch ++ "/" ++ h.subdir ++ filename

/-- A store bound to subdirectory `img/` with the default CDN. -/
def hostA : Host :=
  { owner := "o"
    repo := "r"
    branch := "main"
    subdir := "img/"
    token := "t"
    custom_cdn := none
    max_concurrency := 4 }

/-- A store with an empty subdirectory (input `""`). -/
def hostE : Host :=
  { owner := "o"
    repo := "r"
    branch := "main"
    subdir := ""
    token := "t"
    custom_cdn := none
    max_concurrency := 4 }

/-- A store configured with custom CDN base `""` (falsy in Python). -/
def hostCE : Host :=
  { owner := "o"
    repo := "r"
    branch := "main"
    subdir := "img/"
    token := "t"
    custom_cdn := some ""
    max_concurrency := 4 }

/-- A store with a custom CDN base carrying a trailing slash. -/
def hostCdn : Host :=
  { owner := "o"
    repo := "r"
    branch := "main"
    subdir := "img/"
    token := "t"
    custom_cdn := some "https://mirror.example.com/"
    max_concurrency := 4 }

/-- A present local file `pics/a.png`. -/
def fileA : LocalFile :=
  { path := "pics/a.png", isFile := true, contentB64 := "QUJD" }

/-- A present local file `pics/b.png`. -/
def fileB : LocalFile :=
  { path := "pics/b.png", isFile := true, contentB64 := "REVG" }

/-- A 200 response whose body carries sha `"abc"`. -/
def resp200 : Response :=
  { status := 200, text := "", sha := "abc", listing := [] }

/-- A 404 response. -/
def resp404 : Response :=
  { status := 404, text := "nf", sha := "", listing := [] }

/-- A 422 naming-conflict response. -/
def resp422 : Response :=
  { status := 422, text := "conflict", sha := "", listing := [] }

/-- A 500 failure response whose body happens to carry a sha field. -/
def resp500 : Response :=
  { status := 500, text := "boom", sha := "zz", listing := [] }

/-- Upload environment: directory present, no conflict. -/
def envPlain : UploadEnv :=
  { dirLookup := resp200, resp1 := resp200, resp2 := resp200,
    now := UTCTime.mk 2026 1 2 3 4 5 }

/-- Upload environment: directory present, first create conflicts, retry
succeeds. -/
def envConflict : UploadEnv :=
  { dirLookup := resp200, resp1 := resp422, resp2 := resp200,
    now := UTCTime.mk 2026 1 2 3 4 5 }

/-- Upload environment: directory present, first create fails with 500. -/
def envFail : UploadEnv :=
  { dirLookup := resp200, resp1 := resp500, resp2 := resp200,
    now := UTCTime.mk 2026 1 2 3 4 5 }

/-- Upload environment: directory present, first create conflicts, and the
rename retry fails with 500. -/
def envConflictFail : UploadEnv :=
  { dirLookup := resp200, resp1 := resp422, resp2 := resp500,
    now := UTCTime.mk 2026 1 2 3 4 5 }

/-- Listing entry: kept file `a.png`. -/
def entA : Entry :=
  { name := "a.png", type := "file", path := "img/a.png", sha := "sa" }

/-- Listing entry: file `b.png`. -/
def entB : Entry :=
  { name := "b.png", type := "file", path := "img/b.png", sha := "sb" }

/-- Listing entry: file `c.png`. -/
def entC : Entry :=
  { name := "c.png", type := "file", path := "img/c.png", sha := "sc" }

/-- Listing entry: a nested directory. -/
def entDir : Entry :=
  { name := "sub", type := "dir", path := "img/sub", sha := "sd" }

/-- A 200 directory listing containing the three files and the nested
directory. -/
def respList : Response :=
  { status := 200, text := "", sha := "", listing := [entA, entB, entC, entDir] }

/-- `countAcq` adds over concatenation. -/
theorem countAcq_append (xs ys : List Act) :
    countAcq (xs ++ ys) = countAcq xs + countAcq ys := by
  induction xs with
  | nil => simp [countAcq]
  | cons a t ih =>
    cases a <;> simp [countAcq, ih]
    omega

/-- `countRel` adds over concatenation. -/
theorem countRel_append (xs ys : List Act) :
    countRel (xs ++ ys) = countRel xs + countRel ys := by
  induction xs with
  | nil => simp [countRel]
  | cons a t ih =>
    cases a <;> simp [countRel, ih]
    omega

/-- `gateState` distributes over concatenation. -/
theorem gateState_append (xs ys : List Act) (s : Bool × Option Request) :
    gateState s (xs ++ ys) = gateState (gateState s xs) ys := by
  induction xs generalizing s with
  | nil => rfl
  | cons a t ih =>
    cases a <;> simp only [List.cons_append, gateState] <;> exact ih _

/-- The discipline checker splits along concatenation, the second part
starting from the gate state the first part reaches. -/
theorem gatedOkB_append (ex : Request → Bool) (xs ys : List Act)
    (hold : Bool) (cur : Option Request) :
    gatedOkB ex hold cur (xs ++ ys) =
      (gatedOkB ex hold cur xs &&
        gatedOkB ex (gateState (hold, cur) xs).1 (gateState (hold, cur) xs).2 ys) := by
  induction xs generalizing hold cur with
  | nil => simp [gatedOkB, gateState]
  | cons a t ih =>
    cases a <;>
      simp only [List.cons_append, gatedOkB, gateState, List.append_eq, ih,
        Bool.and_assoc]

/-- `_ensure_dir` leaves the gate state untouched and respects the
discipline once its placeholder create is exempted. -/
theorem ensureDir_gated (h : Host) (dl : Response) :
    gatedOkB (isGitkeep h) false none (ensureDirActs h dl) = true ∧
      gateState (false, none) (ensureDirActs h dl) = (false, none) := by
  unfold ensureDirActs
  split
  · simp [gatedOkB, gateState]
  · split <;>
      simp [gatedOkB, gateState, getReq, isWrite, isGitkeep, gitkeepReq]

/-- `upload` traces respect the gate discipline (with the placeholder
create exempted): the conflict-free and the rename-retry path both issue
their create(s) strictly inside the acquire/release bracket. -/
theorem upload_gated (h : Host) (f : LocalFile) (env : UploadEnv) :
    gatedOkB (isGitkeep h) false none (upload h f env).2 = true := by
  obtain ⟨h1, h2⟩ := ensureDir_gated h env.dirLookup
  unfold upload
  split
  · exact h1
  · split
    · split <;>
        simp [gatedOkB_append, h1, h2, gatedOkB, isWrite, uploadPut]
    · split <;>
        simp [gatedOkB_append, h1, h2, gatedOkB, isWrite, uploadPut]

/-- `delete` traces respect the gate discipline: the lookup is ungated and
read-only, the DELETE is issued inside the acquire/release bracket. -/
theorem delete_gated (h : Host) (fn : String) (lk dr : Response) :
    gatedOkB (isGitkeep h) false none (delete h fn lk dr).2 = true := by
  unfold delete
  split
  · simp [gatedOkB, getReq, isWrite]
  · split <;>
      simp [gatedOkB, getReq, isWrite, deleteReq]

/-- `update` traces respect the gate discipline (with the placeholder
create exempted): the overwrite PUT is issued inside the bracket. -/
theorem update_gated (h : Host) (f : LocalFile) (fn : Option String)
    (dl lk pr : Response) :
    gatedOkB (isGitkeep h) false none (update h f fn dl lk pr).2 = true := by
  obtain ⟨h1, h2⟩ := ensureDir_gated h dl
  unfold update
  cases hok : lk.ok <;> cases hpr : pr.ok <;> cases fn <;>
    simp [hok, hpr, gatedOkB_append, h1, h2, gatedOkB, getReq, isWrite,
      updatePut, gateState_append, gateState]

/-- The per-entry loop of `clear_dir` respects the gate discipline: every
DELETE is issued inside its own acquire/release bracket. -/
theorem clearLoop_gated (h : Host) (keep : List String)
    (dresp : Entry → Response) (l : List Entry) (n : Nat) :
    gatedOkB (isGitkeep h) false none (clearLoop h keep dresp l n).2 = true := by
  induction l generalizing n with
  | nil => simp [clearLoop, gatedOkB]
  | cons e rest ih =>
    unfold clearLoop
    split
    · exact ih n
    · split
      · exact ih n
      · split
        · simp [gatedOkB_append, gatedOkB, gateState, isWrite, deleteReq, ih]
        · simp [gatedOkB, isWrite, deleteReq]

/-- `clear_dir` traces respect the gate discipline. -/
theorem clear_dir_gated (h : Host) (keep : List String) (dp : Option String)
    (lr : Response) (dresp : Entry → Response) :
    gatedOkB (isGitkeep h) false none (clear_dir h keep dp lr dresp).2 = true := by
  unfold clear_dir
  cases hok : lr.ok <;> cases dp <;>
    simp [hok, gatedOkB, gatedOkB_append, gateState, getReq, isWrite,
      clearLoop_gated]

/-- `_ensure_dir` neither acquires nor releases the semaphore. -/
theorem ensureDir_counts (h : Host) (dl : Response) :
    countAcq (ensureDirActs h dl) = 0 ∧ countRel (ensureDirActs h dl) = 0 := by
  unfold ensureDirActs
  split
  · simp [countAcq, countRel]
  · split <;> simp [countAcq, countRel]

/-- Every `upload` trace releases the permit exactly as often as it
acquires it — on success and on the raising paths alike. -/
theorem upload_balanced (h : Host) (f : LocalFile) (env : UploadEnv) :
    countRel (upload h f env).2 = countAcq (upload h f env).2 := by
  obtain ⟨h1, h2⟩ := ensureDir_counts h env.dirLookup
  unfold upload
  split
  · simp [h1, h2]
  · split <;> split <;>
      simp [countAcq_append, countRel_append, h1, h2, countAcq, countRel]

/-- Every `delete` trace releases the permit exactly as often as it
acquires it. -/
theorem delete_balanced (h : Host) (fn : String) (lk dr : Response) :
    countRel (delete h fn lk dr).2 = countAcq (delete h fn lk dr).2 := by
  unfold delete
  split
  · simp [countAcq, countRel]
  · split <;> simp [countAcq, countRel]

/-- Every `update` trace releases the permit exactly as often as it
acquires it. -/
theorem update_balanced (h : Host) (f : LocalFile) (fn : Option String)
    (dl lk pr : Response) :
    countRel (update h f fn dl lk pr).2 = countAcq (update h f fn dl lk pr).2 := by
  obtain ⟨h1, h2⟩ := ensureDir_counts h dl
  unfold update
  cases hok : lk.ok <;> cases hpr : pr.ok <;> cases fn <;>
    simp [hok, hpr, countAcq_append, countRel_append, h1, h2, countAcq, countRel]

/-- The `clear_dir` per-entry loop releases the permit exactly as often as
it acquires it, including on the aborting path. -/
theorem clearLoop_balanced (h : Host) (keep : List String)
    (dresp : Entry → Response) (l : List Entry) (n : Nat) :
    countRel (clearLoop h keep dresp l n).2 =
      countAcq (clearLoop h keep dresp l n).2 := by
  induction l generalizing n with
  | nil => simp [clearLoop, countAcq, countRel]
  | cons e rest ih =>
    unfold clearLoop
    split
    · exact ih n
    · split
      · exact ih n
      · split
        · simp [countAcq_append, countRel_append, countAcq, countRel, ih]
        · simp [countAcq, countRel]

/-- Every `clear_dir` trace releases the permit exactly as often as it
acquires it. -/
theorem clear_dir_balanced (h : Host) (keep : List String) (dp : Option String)
    (lr : Response) (dresp : Entry → Response) :
    countRel (clear_dir h keep dp lr dresp).2 =
      countAcq (clear_dir h keep dp lr dresp).2 := by
  unfold clear_dir
  cases hok : lr.ok <;> cases dp <;>
    simp [hok, countAcq, countRel, clearLoop_balanced h keep dresp lr.listing 0]

/-- Counting a weaker predicate over a thread pool bounds counting a
stronger one. -/
theorem countP_le_of_imp (p q : Thread → Bool) (s : Multiset Thread)
    (himp : ∀ t ∈ s, p t = true → q t = true) :
    Multiset.countP (fun t => p t = true) s ≤
      Multiset.countP (fun t => q t = true) s := by
  induction s using Multiset.induction_on with
  | empty => simp
  | cons a s ih =>
    simp only [Multiset.countP_cons]
    have hs := ih (fun t ht => himp t (Multiset.mem_cons_of_mem ht))
    have ha := himp a (Multiset.mem_cons_self a s)
    split_ifs with h1 h2
    · omega
    · exact absurd (ha h1) h2
    · omega
    · omega

/-- The invariant holds initially: all permits are free and no thread has
started. -/
theorem inv_init (ex : Request → Bool) (N : Nat) (progs : Multiset (List Act))
    (hpr : ∀ pr ∈ progs, gatedOkB ex false none pr = true) :
    Inv ex N (N, initThreads progs) := by
  constructor
  · have h0 : holdingCount (initThreads progs) = 0 := by
      rw [holdingCount, Multiset.countP_eq_zero]
      intro t ht
      simp only [initThreads, Multiset.mem_map] at ht
      obtain ⟨pr, _, rfl⟩ := ht
      simp
    simp [h0]
  · intro t ht
    simp only [initThreads, Multiset.mem_map] at ht
    obtain ⟨pr, hmem, rfl⟩ := ht
    exact ⟨hpr pr hmem, by simp [Thread.busyNE]⟩

/-- Every step of the interleaved semantics preserves the invariant. -/
theorem inv_step {ex : Request → Bool} {N : Nat} {c c2 : Config}
    (hstep : GStep c c2) (hinv : Inv ex N c) : Inv ex N c2 := by
  obtain ⟨hcount, hall⟩ := hinv
  cases hstep with
  | @acquire p s rest hold cur hp =>
    obtain ⟨hok, _⟩ := hall _ (Multiset.mem_cons_self _ _)
    simp only [gatedOkB, Bool.and_eq_true, Bool.not_eq_true',
      Option.isNone_iff_eq_none] at hok
    obtain ⟨⟨hh, hc⟩, hrest⟩ := hok
    refine ⟨?_, ?_⟩
    · simp only [holdingCount, Multiset.countP_cons, hh] at hcount ⊢
      simp at hcount ⊢
      omega
    · intro t ht
      rcases Multiset.mem_cons.mp ht with rfl | ht2
      · exact ⟨hrest, fun _ => rfl⟩
      · exact hall t (Multiset.mem_cons_of_mem ht2)
  | @release p s rest hold cur =>
    obtain ⟨hok, _⟩ := hall _ (Multiset.mem_cons_self _ _)
    simp only [gatedOkB, Bool.and_eq_true, Option.isNone_iff_eq_none] at hok
    obtain ⟨⟨hh, hc⟩, hrest⟩ := hok
    refine ⟨?_, ?_⟩
    · simp only [holdingCount, Multiset.countP_cons, hh] at hcount ⊢
      simp at hcount ⊢
      omega
    · intro t ht
      rcases Multiset.mem_cons.mp ht with rfl | ht2
      · exact ⟨hrest, by simp [Thread.busyNE, hc]⟩
      · exact hall t (Multiset.mem_cons_of_mem ht2)
  | @reqStart p s q rest hold cur =>
    obtain ⟨hok, _⟩ := hall _ (Multiset.mem_cons_self _ _)
    simp only [gatedOkB, Bool.and_eq_true, Option.isNone_iff_eq_none] at hok
    obtain ⟨⟨hc, hcond⟩, hrest⟩ := hok
    refine ⟨?_, ?_⟩
    · simp only [holdingCount, Multiset.countP_cons] at hcount ⊢
      simpa using hcount
    · intro t ht
      rcases Multiset.mem_cons.mp ht with rfl | ht2
      · refine ⟨hrest, fun hb => ?_⟩
        simp only [Thread.busyNE, Bool.and_eq_true, Bool.not_eq_true'] at hb
        simp only [hb.1, hb.2, Bool.not_true, Bool.false_or] at hcond
        exact hcond
      · exact hall t (Multiset.mem_cons_of_mem ht2)
  | @reqEnd p s rest hold cur =>
    obtain ⟨hok, _⟩ := hall _ (Multiset.mem_cons_self _ _)
    simp only [gatedOkB, Bool.and_eq_true] at hok
    obtain ⟨hc, hrest⟩ := hok
    refine ⟨?_, ?_⟩
    · simp only [holdingCount, Multiset.countP_cons] at hcount ⊢
      simpa using hcount
    · intro t ht
      rcases Multiset.mem_cons.mp ht with rfl | ht2
      · exact ⟨hrest, by simp [Thread.busyNE]⟩
      · exact hall t (Multiset.mem_cons_of_mem ht2)

/-- Soundness of the gate: from any reachable configuration of threads
whose programs respect the discipline, the number of non-exempt mutating
requests in flight never exceeds the permit count. -/
theorem reach_inFlight_le (ex : Request → Bool) (N : Nat)
    (progs : Multiset (List Act))
    (hpr : ∀ pr ∈ progs, gatedOkB ex false none pr = true)
    (c : Config) (hreach : Reach N progs c) :
    inFlightMut ex c.2 ≤ N := by
  have hinv : Inv ex N c := by
    unfold Reach at hreach
    induction hreach with
    | refl => exact inv_init ex N progs hpr
    | tail hsteps hstep ih => exact inv_step hstep ih
  obtain ⟨hcount, hall⟩ := hinv
  have h1 : inFlightMut ex c.2 ≤ holdingCount c.2 :=
    countP_le_of_imp (fun t => t.busyNE ex) (fun t => t.holding) c.2
      (fun t ht => (hall t ht).2)
  omega

/-- `dropWhile` never leaves a head that satisfies the predicate. -/
theorem dropWhile_head_false (p : Char → Bool) (l : List Char) :
    ∀ x xs, l.dropWhile p = x :: xs → p x = false := by
  induction l with
  | nil =>
    intro x xs h
    simp [List.dropWhile] at h
  | cons a t ih =>
    intro x xs h
    rw [List.dropWhile_cons] at h
    by_cases hp : p a = true
    · rw [if_pos hp] at h
      exact ih x xs h
    · rw [if_neg hp] at h
      obtain ⟨rfl, rfl⟩ := List.cons.injEq .. ▸ h
      exact Bool.not_eq_true _ ▸ hp

/-- `dropWhile` removes a prefix of its input. -/
theorem dropWhile_drops_front (p : Char → Bool) (l : List Char) :
    ∃ u, u ++ l.dropWhile p = l := by
  induction l with
  | nil => exact ⟨[], rfl⟩
  | cons a t ih =>
    by_cases hp : p a = true
    · obtain ⟨u, hu⟩ := ih
      refine ⟨a :: u, ?_⟩
      rw [List.dropWhile_cons, if_pos hp, List.cons_append, hu]
    · refine ⟨[], ?_⟩
      rw [List.dropWhile_cons, if_neg hp, List.nil_append]

/-- A string that does not start with `/` is unchanged by `lstrip("/")`. -/
theorem pyLStrip_eq_self (s : String) (h : startsSep s = false) :
    pyLStrip '/' s = s := by
  obtain ⟨l⟩ := s
  cases l with
  | nil => rfl
  | cons c t =>
    simp only [startsSep, decide_eq_false_iff_not] at h
    simp [pyLStrip, List.dropWhile_cons, h]

/-- A `strip("/")` result neither starts nor ends with `/`. -/
theorem pyStrip_ends (s : String) :
    startsSep (pyStrip '/' s) = false ∧
      (pyStrip '/' s).data.reverse.head? ≠ some '/' := by
  set m : List Char := s.data.dropWhile (· = '/') with hm
  have hdata : (pyStrip '/' s).data = (m.reverse.dropWhile (· = '/')).reverse := by
    simp [pyStrip, pyLStrip, pyRStrip, hm]
  constructor
  · cases hr : (pyStrip '/' s).data with
    | nil => simp [startsSep, hr]
    | cons x xs =>
      simp only [startsSep, hr, decide_eq_false_iff_not]
      rw [hdata] at hr
      obtain ⟨u, hu⟩ := dropWhile_drops_front (· = '/') m.reverse
      have hmx : m = x :: (xs ++ u.reverse) := by
        have := congrArg List.reverse hu
        rw [List.reverse_append, List.reverse_reverse, hr] at this
        simpa using this.symm
      have hhead : ∀ y ys, m = y :: ys → (y = '/' : Bool) = false := by
        intro y ys hy
        exact dropWhile_head_false (· = '/') s.data y ys (hm ▸ hy)
      have := hhead x (xs ++ u.reverse) hmx
      simpa using this
  · intro hcontra
    rw [hdata, List.reverse_reverse] at hcontra
    cases hd : m.reverse.dropWhile (· = '/') with
    | nil => rw [hd] at hcontra; simp at hcontra
    | cons y ys =>
      rw [hd] at hcontra
      simp only [List.head?_cons, Option.some.injEq] at hcontra
      have := dropWhile_head_false (· = '/') m.reverse y ys hd
      rw [hcontra] at this
      simp at this

/-- Appending `/` to a string whose last character is not `/` yields a
string ending in exactly one `/`. -/
theorem endsOneSep_append (a : String)
    (ha : a.data.reverse.head? ≠ some '/') :
    endsOneSep (a ++ "/") = true := by
  have hdata : (a ++ "/").data.reverse = '/' :: a.data.reverse := by
    rw [String.data_append]
    simp [String.data]
  unfold endsOneSep
  rw [hdata]
  cases hr : a.data.reverse with
  | nil => simp
  | cons d ds =>
    rw [hr] at ha
    simp only [List.head?_cons, ne_eq, Option.some.injEq] at ha
    simp [ha]

/-- Appending to a nonempty string keeps its first character. -/
theorem startsSep_append_left (a b : String) (ha : a ≠ "") :
    startsSep (a ++ b) = startsSep a := by
  obtain ⟨l⟩ := a
  cases l with
  | nil => exact absurd rfl ha
  | cons c t =>
    show startsSep ⟨c :: t ++ b.data⟩ = _
    simp [startsSep]

/-- `requestsOf` distributes over concatenation. -/
theorem requestsOf_append (xs ys : List Act) :
    requestsOf (xs ++ ys) = requestsOf xs ++ requestsOf ys := by
  simp [requestsOf]

/-- `writesOf` distributes over concatenation. -/
theorem writesOf_append (xs ys : List Act) :
    writesOf (xs ++ ys) = writesOf xs ++ writesOf ys := by
  simp [writesOf, requestsOf_append]

/-- The only write `_ensure_dir` can issue is the `.gitkeep` placeholder
create. -/
theorem ensureDir_writes (h : Host) (dl : Response) :
    ∀ r ∈ writesOf (ensureDirActs h dl), r = gitkeepReq h := by
  unfold ensureDirActs
  split
  · simp [writesOf, requestsOf]
  · split <;>
      simp [writesOf, requestsOf, getReq, isWrite, gitkeepReq]

/-- `_ensure_dir` issues no write at all when the directory lookup
succeeds (or the subdirectory is empty). -/
theorem ensureDir_no_writes (h : Host) (dl : Response) (hok : dl.ok = true) :
    writesOf (ensureDirActs h dl) = [] := by
  unfold ensureDirActs
  split
  · simp [writesOf, requestsOf]
  · simp [hok, writesOf, requestsOf, getReq, isWrite]

/-- A file name is its stem followed by its suffix. -/
theorem pyStem_append_suffix (n : String) : pyStem n ++ pySuffix n = n := by
  unfold pyStem pySuffix
  cases h : lastIdx '.' n.data with
  | none => simp
  | some i =>
    dsimp only
    split_ifs
    · apply String.ext
      simp [String.data_append]
    · simp

/-- The timestamp-renamed file name is strictly longer than, hence
different from, the original name. -/
theorem renamed_ne_name (n ts : String) :
    pyStem n ++ "-" ++ ts ++ pySuffix n ≠ n := by
  intro heq
  have hlen := congrArg String.length heq
  have hrecomb := congrArg String.length (pyStem_append_suffix n)
  have hdash : ("-" : String).length = 1 := rfl
  simp only [String.length_append, hdash] at hlen hrecomb
  omega

/-- When every targeted delete succeeds, the `clear_dir` loop deletes
exactly the non-kept regular files, in listing order, and counts them. -/
theorem clearLoop_ok (h : Host) (keep : List String)
    (dresp : Entry → Response) (l : List Entry)
    (hok : ∀ e ∈ toDelete keep l, (dresp e).ok = true) :
    ∀ n, (clearLoop h keep dresp l n).1 =
        Except.ok (n + (toDelete keep l).length) ∧
      writesOf (clearLoop h keep dresp l n).2 =
        (toDelete keep l).map (fun e => deleteReq h e.path e.name e.sha) := by
  induction l with
  | nil => intro n; simp [clearLoop, toDelete, writesOf, requestsOf]
  | cons e rest ih =>
    intro n
    by_cases hty : e.type = "file"
    · by_cases hkp : e.name ∈ keep
      · have htd : toDelete keep (e :: rest) = toDelete keep rest := by
          simp [toDelete, List.filter_cons, hty, hkp]
        rw [htd] at hok ⊢
        have := ih hok n
        unfold clearLoop
        rw [if_neg (by simp [hty]), if_pos hkp]
        exact this
      · have htd : toDelete keep (e :: rest) = e :: toDelete keep rest := by
          simp [toDelete, List.filter_cons, hty, hkp]
        rw [htd] at hok ⊢
        have hde : (dresp e).ok = true := hok e (List.mem_cons_self e _)
        have hrest := ih (fun x hx => hok x (List.mem_cons_of_mem e hx)) (n + 1)
        unfold clearLoop
        rw [if_neg (by simp [hty]), if_neg hkp, if_pos hde]
        constructor
        · rw [hrest.1]
          simp [Nat.add_assoc, Nat.add_comm 1]
        · rw [writesOf_append, hrest.2]
          simp [writesOf, requestsOf, deleteReq, isWrite]
    · have htd : toDelete keep (e :: rest) = toDelete keep rest := by
        simp [toDelete, List.filter_cons, hty]
      rw [htd] at hok ⊢
      have := ih hok n
      unfold clearLoop
      rw [if_pos (by simp [hty])]
      exact this

/-- If the `clear_dir` loop fails, the error is the `RuntimeError` carrying
the body text of some targeted entry's failed delete response. -/
theorem clearLoop_err (h : Host) (keep : List String)
    (dresp : Entry → Response) (l : List Entry) :
    ∀ n err, (clearLoop h keep dresp l n).1 = Except.error err →
      ∃ e ∈ toDelete keep l, err = Err.remote (dresp e).text := by
  induction l with
  | nil => intro n err herr; simp [clearLoop] at herr
  | cons e rest ih =>
    intro n err herr
    unfold clearLoop at herr
    by_cases hty : e.type = "file"
    · rw [if_neg (by simp [hty])] at herr
      by_cases hkp : e.name ∈ keep
      · rw [if_pos hkp] at herr
        obtain ⟨x, hx, hxe⟩ := ih n err herr
        exact ⟨x, by simp [toDelete, List.filter_cons, hty, hkp] at hx ⊢; exact hx, hxe⟩
      · rw [if_neg hkp] at herr
        by_cases hde : (dresp e).ok = true
        · rw [if_pos hde] at herr
          simp only at herr
          obtain ⟨x, hx, hxe⟩ := ih (n + 1) err herr
          refine ⟨x, ?_, hxe⟩
          simp [toDelete, List.filter_cons, hty, hkp] at hx ⊢
          exact Or.inr hx
        · rw [if_neg hde] at herr
          simp only [Except.error.injEq] at herr
          refine ⟨e, ?_, herr.symm⟩
          simp [toDelete, List.filter_cons, hty, hkp]
    · rw [if_pos (by simp [hty])] at herr
      obtain ⟨x, hx, hxe⟩ := ih n err herr
      exact ⟨x, by simp [toDelete, List.filter_cons, hty] at hx ⊢; exact hx, hxe⟩

/-- Inserting a fresh key into the dict appends it. -/
theorem dictInsert_fresh (m : List (String × String)) (k v : String)
    (hfresh : ∀ p ∈ m, p.1 ≠ k) :
    dictInsert m k v = m ++ [(k, v)] := by
  unfold dictInsert
  rw [if_neg]
  intro hc
  rw [List.any_eq_true] at hc
  obtain ⟨p, hp, hpk⟩ := hc
  exact hfresh p hp (by simpa using hpk)

/-- When all uploads succeed and the paths are distinct (and fresh for the
accumulator), `upload_many` appends one entry per path, keyed by the local
path and valued by that path's own upload result. -/
theorem upload_many_ok (h : Host) :
    ∀ (items : List (LocalFile × UploadEnv)) (m : List (String × String)),
      (∀ it ∈ items, ∀ p ∈ m, p.1 ≠ it.1.path) →
      (items.map (fun it => it.1.path)).Nodup →
      (∀ it ∈ items, ∃ u, (upload h it.1 it.2).1 = Except.ok u) →
      (upload_many h items m).1 =
        Except.ok (m ++ items.map
          (fun it => (it.1.path, okOr (upload h it.1 it.2).1))) := by
  intro items
  induction items with
  | nil =>
    intro m _ _ _
    simp [upload_many]
  | cons it rest ih =>
    intro m hfresh hnd hok
    obtain ⟨f, env⟩ := it
    obtain ⟨u, hu⟩ := hok (f, env) (List.mem_cons_self _ _)
    simp only at hu
    have hmhd : ∀ p ∈ m, p.1 ≠ f.path := fun p hp =>
      hfresh (f, env) (List.mem_cons_self _ _) p hp
    have hins : dictInsert m f.path u = m ++ [(f.path, u)] :=
      dictInsert_fresh m f.path u hmhd
    have hndrest : (rest.map (fun it => it.1.path)).Nodup := by
      simpa using (List.nodup_cons.mp (by simpa using hnd)).2
    have hhd : f.path ∉ rest.map (fun it => it.1.path) :=
      (List.nodup_cons.mp (by simpa using hnd)).1
    have hfresh2 : ∀ it2 ∈ rest, ∀ p ∈ m ++ [(f.path, u)], p.1 ≠ it2.1.path := by
      intro it2 hit2 p hp
      rcases List.mem_append.mp hp with hp1 | hp2
      · exact hfresh it2 (List.mem_cons_of_mem _ hit2) p hp1
      · simp only [List.mem_singleton] at hp2
        subst hp2
        intro hpe
        exact hhd (by
          simp only [List.mem_map]
          exact ⟨it2, hit2, hpe.symm⟩)
    have hrest := ih (m ++ [(f.path, u)]) hfresh2 hndrest
      (fun it2 hit2 => hok it2 (List.mem_cons_of_mem _ hit2))
    unfold upload_many
    simp only [hu, hins, hrest, List.map_cons, okOr, List.append_assoc,
      List.singleton_append]

/-- C1: for every upload whose first create request is answered 422 —
whatever the retry's outcome — the store issues exactly one retry create
(beyond `_ensure_dir`'s possible placeholder) at the renamed path
`{subdirectory}{stem}-{YYYYMMDD-HHMMSS}{suffix}` built from the UTC time it
observed, both creates carry no `sha` (so nothing is overwritten) and the
renamed name differs from the original; when the retry succeeds the CDN URL
of the renamed file is returned, and when it fails the error propagates
with the retry response's body. -/
theorem C1_upload_conflict_rename (h : Host) (f : LocalFile) (env : UploadEnv)
    (hfile : f.isFile = true) (h422 : env.resp1.status = 422) :
    writesOf (upload h f env).2 = writesOf (ensureDirActs h env.dirLookup) ++
        [uploadPut h f.name f.contentB64,
         uploadPut h (pyStem f.name ++ "-" ++ fmtTimestamp env.now ++
           pySuffix f.name) f.contentB64] ∧
    (uploadPut h (pyStem f.name ++ "-" ++ fmtTimestamp env.now ++
        pySuffix f.name) f.contentB64).url =
      apiUrl h (h.subdir ++ (pyStem f.name ++ "-" ++ fmtTimestamp env.now ++
        pySuffix f.name)) ∧
    (uploadPut h f.name f.contentB64).sha = none ∧
    (uploadPut h (pyStem f.name ++ "-" ++ fmtTimestamp env.now ++
        pySuffix f.name) f.contentB64).sha = none ∧
    pyStem f.name ++ "-" ++ fmtTimestamp env.now ++ pySuffix f.name ≠ f.name ∧
    (env.resp2.ok = true → (upload h f env).1 = Except.ok (cdnUrl h
      (pyStem f.name ++ "-" ++ fmtTimestamp env.now ++ pySuffix f.name))) ∧
    (env.resp2.ok = false →
      (upload h f env).1 = Except.error (Err.remote env.resp2.text)) := by
  refine ⟨?_, rfl, rfl, rfl, renamed_ne_name f.name (fmtTimestamp env.now),
    ?_, ?_⟩
  · cases hok : env.resp2.ok <;>
      simp [upload, hfile, h422, hok, writesOf_append, writesOf, requestsOf,
        isWrite, uploadPut]
  · intro hok
    simp [upload, hfile, h422, hok]
  · intro hok
    simp [upload, hfile, h422, hok]

/-- C1 witness: a concrete conflicting upload is renamed with the observed
UTC timestamp `20260102-030405` and its URL is returned; the same conflict
with a failing retry still issues exactly those two creates and propagates
the retry's body. -/
theorem C1_upload_conflict_rename_witness :
    (upload hostA fileA envConflict).1 = Except.ok (cdnUrl hostA
        (pyStem fileA.name ++ "-" ++ fmtTimestamp envConflict.now ++
          pySuffix fileA.name)) ∧
    pyStem fileA.name ++ "-" ++ fmtTimestamp envConflict.now ++
        pySuffix fileA.name = "a-20260102-030405.png" ∧
    cdnUrl hostA "a-20260102-030405.png" =
      "https://cdn.jsdelivr.net/gh/o/r@main/img/a-20260102-030405.png" ∧
    writesOf (upload hostA fileA envConflictFail).2 =
      [uploadPut hostA fileA.name fileA.contentB64,
       uploadPut hostA "a-20260102-030405.png" fileA.contentB64] ∧
    (upload hostA fileA envConflictFail).1 =
      Except.error (Err.remote "boom") := by
  have hsucc := C1_upload_conflict_rename hostA fileA envConflict rfl rfl
  have hfail := C1_upload_conflict_rename hostA fileA envConflictFail rfl rfl
  refine ⟨hsucc.2.2.2.2.2.1 rfl, rfl, rfl, hfail.1.trans (by rfl),
    hfail.2.2.2.2.2.2 rfl⟩

/-- C3 counterexample: the all-separator input `"/"` is truthy in Python,
so it normalizes to `""` + `"/"` = `"/"`, which starts with a separator —
contradicting "never starts with one". -/
theorem C3_counterexample_slash_input :
    normSubdir "/" = "/" ∧ startsSep (normSubdir "/") = true := by
  exact ⟨rfl, rfl⟩

/-- C3 amended: the three sample inputs normalize to `img/` and the empty
input to the empty string; every input whose characters are all separators
(but is nonempty) normalizes to `"/"`; every input containing a
non-separator character normalizes to a string that does not start with a
separator and ends with exactly one. -/
theorem C3_subdir_normalization_amended :
    normSubdir "img" = "img/" ∧ normSubdir "/img/" = "img/" ∧
    normSubdir "img/" = "img/" ∧ normSubdir "" = "" ∧
    (∀ s : String, s ≠ "" → pyStrip '/' s = "" → normSubdir s = "/") ∧
    (∀ s : String, pyStrip '/' s ≠ "" →
      startsSep (normSubdir s) = false ∧ endsOneSep (normSubdir s) = true) := by
  refine ⟨rfl, rfl, rfl, rfl, ?_, ?_⟩
  · intro s hs hstrip
    unfold normSubdir
    rw [if_neg hs, hstrip]
    rfl
  · intro s hne
    have hs : s ≠ "" := by
      intro hempty
      rw [hempty] at hne
      exact hne rfl
    unfold normSubdir
    rw [if_neg hs]
    constructor
    · rw [startsSep_append_left _ _ hne]
      exact (pyStrip_ends s).1
    · exact endsOneSep_append _ (pyStrip_ends s).2

/-- C3 amended witness: `"//"` normalizes to `"/"`, and `"a//b/"`
normalizes to a string not starting and ending with exactly one
separator. -/
theorem C3_subdir_normalization_amended_witness :
    normSubdir "//" = "/" ∧
    (startsSep (normSubdir "a//b/") = false ∧
      endsOneSep (normSubdir "a//b/") = true) := by
  exact ⟨C3_subdir_normalization_amended.2.2.2.2.1 "//" (by decide) (by decide),
    C3_subdir_normalization_amended.2.2.2.2.2 "a//b/" (by decide)⟩

/-- C4: a delete whose lookup answers 404 returns normally, issues no write
at all, and its only request is the lookup GET. -/
theorem C4_delete_absent_idempotent (h : Host) (fn : String) (lk dr : Response)
    (h404 : lk.status = 404) :
    (delete h fn lk dr).1 = Except.ok () ∧
    writesOf (delete h fn lk dr).2 = [] ∧
    requestsOf (delete h fn lk dr).2 = [getReq (apiUrl h (h.subdir ++ fn))] := by
  unfold delete
  rw [if_pos h404]
  exact ⟨rfl, rfl, rfl⟩

/-- C4 witness: deleting `a.png` when the lookup 404s succeeds silently
with the lookup GET as the only request. -/
theorem C4_delete_absent_idempotent_witness :
    (delete hostA "a.png" resp404 resp200).1 = Except.ok () ∧
    writesOf (delete hostA "a.png" resp404 resp200).2 = [] ∧
    requestsOf (delete hostA "a.png" resp404 resp200).2 =
      [getReq (apiUrl hostA (hostA.subdir ++ "a.png"))] :=
  C4_delete_absent_idempotent hostA "a.png" resp404 resp200 rfl

/-- C5 counterexample: with the subdirectory absent remotely (directory
lookup not ok) and the target absent, `update` does raise
`FileNotFoundError` — but it has already issued one write, the `.gitkeep`
placeholder create from `_ensure_dir`, so "zero write requests" is false. -/
theorem C5_counterexample_placeholder_write :
    (update hostA fileA none resp404 resp404 resp200).1 =
      Except.error (Err.fileNotFound "a.png") ∧
    writesOf (update hostA fileA none resp404 resp404 resp200).2 =
      [gitkeepReq hostA] := by
  exact ⟨rfl, rfl⟩

/-- C5 amended: when the target lookup fails, `update` raises
`FileNotFoundError` (with the resolved target name) and issues no write
other than the best-effort `.gitkeep` placeholder that `_ensure_dir` may
have created; when the directory lookup succeeded there is no write at
all.  It never issues the overwrite PUT. -/
theorem C5_update_missing_target_amended (h : Host) (f : LocalFile)
    (fn : Option String) (dl lk pr : Response) (hnotok : lk.ok = false) :
    (update h f fn dl lk pr).1 = Except.error (Err.fileNotFound
      (match fn with
       | some n => if n = "" then f.name else n
       | none => f.name)) ∧
    writesOf (update h f fn dl lk pr).2 = writesOf (ensureDirActs h dl) ∧
    (∀ r ∈ writesOf (update h f fn dl lk pr).2, r = gitkeepReq h) ∧
    (dl.ok = true → writesOf (update h f fn dl lk pr).2 = []) := by
  have hwr : writesOf (update h f fn dl lk pr).2 =
      writesOf (ensureDirActs h dl) := by
    unfold update
    rw [if_pos hnotok]
    simp [writesOf_append, writesOf, requestsOf, getReq, isWrite]
  refine ⟨?_, hwr, ?_, ?_⟩
  · unfold update
    rw [if_pos hnotok]
  · rw [hwr]
    exact ensureDir_writes h dl
  · intro hdl
    rw [hwr]
    exact ensureDir_no_writes h dl hdl

/-- C5 amended witness: with the directory present, updating a missing
target raises FileNotFoundError with zero writes. -/
theorem C5_update_missing_target_amended_witness :
    (update hostA fileA none resp200 resp404 resp200).1 =
      Except.error (Err.fileNotFound "a.png") ∧
    writesOf (update hostA fileA none resp200 resp404 resp200).2 = [] := by
  have h := C5_update_missing_target_amended hostA fileA none resp200 resp404
    resp200 rfl
  exact ⟨h.1, h.2.2.2 rfl⟩

/-- C6: when the listing succeeds and every targeted delete succeeds,
`clear_dir` deletes exactly the listed entries of type `file` whose name is
not kept (each via its own path and sha), skips everything else, and
returns the number deleted. -/
theorem C6_clear_dir_exact (h : Host) (keep : List String) (dp : Option String)
    (lr : Response) (dresp : Entry → Response)
    (hlist : lr.ok = true)
    (hdel : ∀ e ∈ toDelete keep lr.listing, (dresp e).ok = true) :
    (clear_dir h keep dp lr dresp).1 =
      Except.ok (toDelete keep lr.listing).length ∧
    writesOf (clear_dir h keep dp lr dresp).2 =
      (toDelete keep lr.listing).map
        (fun e => deleteReq h e.path e.name e.sha) := by
  have hloop := clearLoop_ok h keep dresp lr.listing hdel 0
  unfold clear_dir
  rw [if_neg (by simp [hlist])]
  constructor
  · simpa using hloop.1
  · have : writesOf (Act.reqStart (getReq (apiUrl h
        (match dp with
         | some d => if d = "" then h.subdir else pyStrip '/' d ++ "/"
         | none => h.subdir))) ::
        Act.reqEnd :: (clearLoop h keep dresp lr.listing 0).2) =
        writesOf (clearLoop h keep dresp lr.listing 0).2 := by
      simp [writesOf, requestsOf, getReq, isWrite]
    simpa [this] using hloop.2

/-- C6 witness: keep `a.png` over listing `a.png, b.png, c.png, sub(dir)`;
exactly `b.png` and `c.png` are deleted (with their own sha) and 2 is
returned. -/
theorem C6_clear_dir_exact_witness :
    (clear_dir hostA ["a.png"] none respList (fun _ => resp200)).1 =
      Except.ok 2 ∧
    writesOf (clear_dir hostA ["a.png"] none respList (fun _ => resp200)).2 =
      [deleteReq hostA "img/b.png" "b.png" "sb",
       deleteReq hostA "img/c.png" "c.png" "sc"] := by
  have h := C6_clear_dir_exact hostA ["a.png"] none respList (fun _ => resp200)
    rfl (by intro e he; rfl)
  refine ⟨h.1.trans (by rfl), h.2.trans (by rfl)⟩

/-- C7 counterexample: with empty subdirectory and a filename beginning
with `/`, the code lstrips the relative path, so the URL differs from the
spec's verbatim `{subdir}{filename}` pattern; and a configured-but-empty
custom CDN base is falsy, so the code falls back to jsDelivr instead of the
custom pattern. -/
theorem C7_counterexample_cdn_url :
    cdnUrl hostE "/a.png" ≠ cdnUrlSpec hostE "/a.png" ∧
    cdnUrl hostCE "a.png" ≠ cdnUrlSpec hostCE "a.png" := by
  constructor <;> decide

/-- C7 amended: whenever `{subdir}{filename}` does not begin with a
separator, `cdnUrl` equals the spec's pattern exactly — the jsDelivr
pattern with no custom CDN, and `{base rstripped of /}/{subdir}{filename}`
with a nonempty custom base — and `get_url` is the same pure string
composition (it issues no request by construction). -/
theorem C7_cdn_url_amended (h : Host) (filename : String)
    (hrel : startsSep (h.subdir ++ filename) = false) :
    (h.custom_cdn = none → cdnUrl h filename =
      "https://cdn.jsdelivr.net/gh/" ++ h.owner ++ "/" ++ h.repo ++ "@" ++
        h.branch ++ "/" ++ h.subdir ++ filename) ∧
    (∀ c, h.custom_cdn = some c → c ≠ "" →
      cdnUrl h filename = pyRStrip '/' c ++ "/" ++ h.subdir ++ filename) ∧
    get_url h filename = cdnUrl h filename := by
  have hl := pyLStrip_eq_self (h.subdir ++ filename) hrel
  refine ⟨?_, ?_, rfl⟩
  · intro hc
    unfold cdnUrl
    rw [hc, hl]
    simp [String.append_assoc]
  · intro c hc hcne
    unfold cdnUrl
    rw [hc, hl]
    simp [hcne, String.append_assoc]

/-- C7 witness: concrete URLs for the default and a custom CDN base. -/
theorem C7_cdn_url_amended_witness :
    cdnUrl hostA "a.png" = "https://cdn.jsdelivr.net/gh/o/r@main/img/a.png" ∧
    cdnUrl hostCdn "a.png" = "https://mirror.example.com/img/a.png" ∧
    get_url hostA "a.png" = cdnUrl hostA "a.png" := by
  refine ⟨((C7_cdn_url_amended hostA "a.png" (by decide)).1 rfl).trans (by rfl),
    ((C7_cdn_url_amended hostCdn "a.png" (by decide)).2.1
      "https://mirror.example.com/" rfl (by decide)).trans (by rfl),
    (C7_cdn_url_amended hostA "a.png" (by decide)).2.2⟩

/-- C8 counterexample: a 500 on `update`'s hash lookup raises
`FileNotFoundError`, not a `RemoteOperationError` carrying the body; and a
500 on `delete`'s hash lookup is not detected at all — the code reads a sha
from the error body, issues the DELETE, and (the DELETE succeeding) returns
normally with no error raised. -/
theorem C8_counterexample_lookup_failures :
    (update hostA fileA none resp200 resp500 resp200).1 =
      Except.error (Err.fileNotFound "a.png") ∧
    (delete hostA "a.png" resp500 resp200).1 = Except.ok () ∧
    writesOf (delete hostA "a.png" resp500 resp200).2 =
      [deleteReq hostA (hostA.subdir ++ "a.png") "a.png" "zz"] := by
  refine ⟨rfl, rfl, by decide⟩

/-- C8 amended: every non-success response to a *write* raises
`RuntimeError` carrying the raw body, with no further attempt: the
non-conflict failed create on upload (exactly one create is sent beyond
`_ensure_dir`), the failed rename retry, the failed DELETE, the failed
overwrite PUT, and each failed per-entry delete of `clear_dir`.  The
lookups behave differently: `update`'s failed lookup raises
`FileNotFoundError` whatever the status, `delete`'s non-404 failed lookup
is not checked (the DELETE proceeds and a successful DELETE hides the
lookup failure), and a failed listing in `clear_dir` raises a fixed
message, not the body. -/
theorem C8_remote_error_amended (h : Host) :
    (∀ f env, f.isFile = true → env.resp1.status ≠ 422 → env.resp1.ok = false →
      (upload h f env).1 = Except.error (Err.remote env.resp1.text) ∧
      writesOf (upload h f env).2 = writesOf (ensureDirActs h env.dirLookup) ++
        [uploadPut h f.name f.contentB64]) ∧
    (∀ f env, f.isFile = true → env.resp1.status = 422 → env.resp2.ok = false →
      (upload h f env).1 = Except.error (Err.remote env.resp2.text)) ∧
    (∀ fn lk dr, lk.status ≠ 404 → dr.ok = false →
      (delete h fn lk dr).1 = Except.error (Err.remote dr.text)) ∧
    (∀ f fn dl lk pr, lk.ok = true → pr.ok = false →
      (update h f fn dl lk pr).1 = Except.error (Err.remote pr.text)) ∧
    (∀ f fn dl lk pr, lk.ok = false →
      (update h f fn dl lk pr).1 = Except.error (Err.fileNotFound
        (match fn with
         | some n => if n = "" then f.name else n
         | none => f.name))) ∧
    (∀ fn lk dr, lk.status ≠ 404 → dr.ok = true →
      (delete h fn lk dr).1 = Except.ok ()) ∧
    (∀ keep dp lr dresp err, (clear_dir h keep dp lr dresp).1 =
        Except.error err → lr.ok = true →
      ∃ e ∈ toDelete keep lr.listing, err = Err.remote (dresp e).text) ∧
    (∀ keep dp lr dresp, lr.ok = false →
      (clear_dir h keep dp lr dresp).1 = Except.error (Err.remote
        ("无法读取目录: " ++ (match dp with
          | some d => if d = "" then h.subdir else pyStrip '/' d ++ "/"
          | none => h.subdir)))) := by
  refine ⟨?_, ?_, ?_, ?_, ?_, ?_, ?_, ?_⟩
  · intro f env hfile h422 hnotok
    constructor
    · simp [upload, hfile, h422, hnotok]
    · simp [upload, hfile, h422, hnotok, writesOf_append, writesOf,
        requestsOf, isWrite, uploadPut]
  · intro f env hfile h422 hnotok
    simp [upload, hfile, h422, hnotok]
  · intro fn lk dr h404 hnotok
    simp [delete, h404, hnotok]
  · intro f fn dl lk pr hok hnotok
    cases fn <;> simp [update, hok, hnotok]
  · intro f fn dl lk pr hnotok
    unfold update
    rw [if_pos hnotok]
  · intro fn lk dr h404 hok
    simp [delete, h404, hok]
  · intro keep dp lr dresp err herr hok
    unfold clear_dir at herr
    rw [if_neg (by simp [hok])] at herr
    exact clearLoop_err h keep dresp lr.listing 0 err herr
  · intro keep dp lr dresp hnotok
    unfold clear_dir
    rw [if_pos hnotok]

/-- C8 amended witness: concrete failed write responses carry the raw body
`"boom"` in the raised error, across upload, delete and update. -/
theorem C8_remote_error_amended_witness :
    (upload hostA fileA envFail).1 = Except.error (Err.remote "boom") ∧
    (delete hostA "a.png" resp200 resp500).1 =
      Except.error (Err.remote "boom") ∧
    (update hostA fileA none resp200 resp200 resp500).1 =
      Except.error (Err.remote "boom") := by
  refine ⟨((C8_remote_error_amended hostA).1 fileA envFail rfl (by decide)
    rfl).1, ?_, ?_⟩
  · exact (C8_remote_error_amended hostA).2.2.1 "a.png" resp200 resp500
      (by decide) rfl
  · exact (C8_remote_error_amended hostA).2.2.2.1 fileA none resp200 resp200
      resp500 rfl rfl

/-- C9 counterexample: two copies of the same local path both upload
successfully, yet the returned dict has one entry, not N = 2 — Python dict
comprehension collapses duplicate keys. -/
theorem C9_counterexample_duplicate_paths :
    (upload_many hostA [(fileA, envPlain), (fileA, envPlain)] []).1 =
      Except.ok [("pics/a.png", cdnUrl hostA "a.png")] ∧
    [("pics/a.png", cdnUrl hostA "a.png")].length = 1 := by
  exact ⟨rfl, rfl⟩

/-- C9 amended: over N *distinct* local paths on which every upload
succeeds, `upload_many` returns a mapping with exactly N entries, keyed by
the original paths in order, each value being that path's own upload
result. -/
theorem C9_upload_many_amended (h : Host)
    (items : List (LocalFile × UploadEnv))
    (hnd : (items.map (fun it => it.1.path)).Nodup)
    (hok : ∀ it ∈ items, ∃ u, (upload h it.1 it.2).1 = Except.ok u) :
    (upload_many h items []).1 = Except.ok (items.map
      (fun it => (it.1.path, okOr (upload h it.1 it.2).1))) ∧
    (items.map (fun it => (it.1.path, okOr (upload h it.1 it.2).1))).length =
      items.length ∧
    (items.map (fun it => (it.1.path, okOr (upload h it.1 it.2).1))).map
      Prod.fst = items.map (fun it => it.1.path) := by
  refine ⟨?_, by simp, by simp⟩
  have hres := upload_many_ok h items [] (by simp) hnd hok
  simpa using hres

/-- C9 amended witness: two distinct paths yield two entries keyed by those
paths, valued by the single-upload URLs. -/
theorem C9_upload_many_amended_witness :
    (upload_many hostA [(fileA, envPlain), (fileB, envPlain)] []).1 =
      Except.ok [("pics/a.png", okOr (upload hostA fileA envPlain).1),
                 ("pics/b.png", okOr (upload hostA fileB envPlain).1)] ∧
    okOr (upload hostA fileA envPlain).1 =
      "https://cdn.jsdelivr.net/gh/o/r@main/img/a.png" := by
  have h9 := C9_upload_many_amended hostA [(fileA, envPlain), (fileB, envPlain)]
    (by decide)
    (by
      intro it hit
      rcases List.mem_cons.mp hit with rfl | hit2
      · exact ⟨cdnUrl hostA "a.png", rfl⟩
      · rcases List.mem_cons.mp hit2 with rfl | hit3
        · exact ⟨cdnUrl hostA "b.png", rfl⟩
        · simp at hit3)
  exact ⟨h9.1.trans (by rfl), rfl⟩

/-- C10: an explicitly passed empty-string credential behaves exactly like
an omitted one — the store falls back to the `GITHUB_PAT` environment
value, and construction fails with the missing-credential error precisely
when that fallback is unset or empty. -/
theorem C10_empty_token_fallback (owner repo branch subdir : String)
    (cdn : Option String) (mc : Nat) (env : Option String) :
    initHost owner repo branch subdir (some "") cdn mc env =
      initHost owner repo branch subdir none cdn mc env ∧
    (initHost owner repo branch subdir (some "") cdn mc env =
        Except.error Err.missingToken ↔ (env = none ∨ env = some "")) := by
  constructor
  · rfl
  · cases env with
    | none => simp [initHost, resolveToken]
    | some e =>
      by_cases he : e = "" <;>
        simp [initHost, resolveToken, he]

/-- C2 counterexample: the placeholder create of `_ensure_dir` (triggered
when the directory lookup fails) is issued with no semaphore permit at all:
its trace contains a mutating request, no acquire, and fails the
every-mutating-request-gated discipline. -/
theorem C2_counterexample_placeholder_ungated :
    mutGatedB (ensureDirActs hostA resp404) = false ∧
    countAcq (ensureDirActs hostA resp404) = 0 ∧
    writesOf (ensureDirActs hostA resp404) = [gitkeepReq hostA] ∧
    mutGatedB (update hostA fileA none resp404 resp404 resp200).2 = false := by
  refine ⟨rfl, rfl, by decide, rfl⟩

/-- C2 amended: every mutating request issued by `upload`, `delete`,
`update` and `clear_dir` *except* the `.gitkeep` placeholder create of
`_ensure_dir` is issued while holding one permit of the shared counting
gate, and every trace releases the permit exactly as often as it acquires
it, in every outcome.  Consequently, in any interleaved execution of such
traces under counting-semaphore semantics with N permits (default 4), at
no instant are more than N permit-gated mutating requests in flight; the
exempted placeholder create is issued ungated. -/
theorem C2_gating_amended :
    (∀ (h : Host) (tr : List Act), opTrace h tr →
      gatedOkB (isGitkeep h) false none tr = true ∧
      countRel tr = countAcq tr) ∧
    (∀ (ex : Request → Bool) (N : Nat) (progs : Multiset (List Act))
        (c : Config),
      (∀ pr ∈ progs, gatedOkB ex false none pr = true) →
      Reach N progs c → inFlightMut ex c.2 ≤ N) := by
  constructor
  · intro h tr htr
    rcases htr with ⟨f, env, rfl⟩ | ⟨fn, lk, dr, rfl⟩ |
      ⟨f, fn, dl, lk, pr, rfl⟩ | ⟨keep, dp, lr, dresp, rfl⟩
    · exact ⟨upload_gated h f env, upload_balanced h f env⟩
    · exact ⟨delete_gated h fn lk dr, delete_balanced h fn lk dr⟩
    · exact ⟨update_gated h f fn dl lk pr, update_balanced h f fn dl lk pr⟩
    · exact ⟨clear_dir_gated h keep dp lr dresp,
        clear_dir_balanced h keep dp lr dresp⟩
  · exact fun ex N progs c hpr hr => reach_inFlight_le ex N progs hpr c hr

/-- C2 amended witness: a concrete upload trace passes the discipline and
is balanced, and a one-thread system running it from 4 permits keeps at
most 4 gated mutating requests in flight. -/
theorem C2_gating_amended_witness :
    (gatedOkB (isGitkeep hostA) false none (upload hostA fileA envPlain).2 =
        true ∧
      countRel (upload hostA fileA envPlain).2 =
        countAcq (upload hostA fileA envPlain).2) ∧
    inFlightMut (isGitkeep hostA)
      (initThreads ({(upload hostA fileA envPlain).2} :
        Multiset (List Act))) ≤ 4 := by
  constructor
  · exact C2_gating_amended.1 hostA _ (Or.inl ⟨fileA, envPlain, rfl⟩)
  · refine C2_gating_amended.2 (isGitkeep hostA) 4
      ({(upload hostA fileA envPlain).2} : Multiset (List Act)) _ ?_
      Relation.ReflTransGen.refl
    intro pr hpr
    rw [Multiset.mem_singleton] at hpr
    subst hpr
    exact (C2_gating_amended.1 hostA _ (Or.inl ⟨fileA, envPlain, rfl⟩)).1

end GIH
